import Mathlib

/-
Verification development for the onobot moderation bot.

Shallow embedding of the repository's Rust sources:
  * src/cache.rs  — sled-backed correlation cache (key = format!("{}/{}", time, user_name),
                    value = bincode (fixint, little-endian) encoding of the i64 MessageId);
  * src/api.rs    — Callback JSON codec (serde_json, externally tagged enum),
                    API::new / run / handle / handle_message / handle_callback /
                    ask_admin / send_ot_alert / get_original_message_id;
  * src/config.rs — Config.

Modelling conventions:
  * i64 values (user ids, message ids, unix dates) are `Int`; the only places where
    64-bit width matters (bincode's byte encoding, serde_json's range check when
    deserializing an i64) carry explicit range conditions / reductions mod 2^64.
  * Fallible Rust code returns `Except`/`Option`; a Rust `panic!`/`.expect(..)` is the
    distinguished `panic` constructor of `PanicOr`/`HRes`, which the event loop does
    NOT catch (an `anyhow::Error` is the `err` constructor, which the loop catches).
  * The sled database is a pure map `String → Option (List Nat)` (bytes as `Nat < 256`)
    plus a set of keys whose storage-layer access fails (models sled IO errors).
  * The `RefCell` interior mutability of the cache becomes explicit state passing.
-/

set_option autoImplicit false

/-- Result of an operation that can only fail by panicking (Rust `panic!` / `.expect`),
which in this program is never caught and tears down the whole process. -/
inductive PanicOr (α : Type) where
  | panic (msg : String)
  | ok (a : α)
deriving DecidableEq

/-- Result of an event handler: `panic` models an uncaught Rust panic, `err` models a
returned `anyhow::Error` (logged by the event loop, which then continues), `ok` carries
the new state and/or the emitted outbound actions. -/
inductive HRes (α : Type) where
  | panic (msg : String)
  | err (msg : String)
  | ok (a : α)
deriving DecidableEq

/-- Decidable equality for `Except`, so that concrete decode results can be
checked by `decide`. -/
instance exceptDecEq {ε α : Type} [DecidableEq ε] [DecidableEq α] :
    DecidableEq (Except ε α) := fun a b =>
  match a, b with
  | Except.error e1, Except.error e2 =>
    if h : e1 = e2 then isTrue (by rw [h]) else isFalse (fun hc => h (by injection hc))
  | Except.error _, Except.ok _ => isFalse (fun hc => Except.noConfusion hc)
  | Except.ok _, Except.error _ => isFalse (fun hc => Except.noConfusion hc)
  | Except.ok a1, Except.ok a2 =>
    if h : a1 = a2 then isTrue (by rw [h]) else isFalse (fun hc => h (by injection hc))

/-! ### bincode fixint little-endian encoding of an i64 (cache values) -/

/-- Little-endian base-256 digits of `n`, exactly `w` bytes. -/
def natLEBytes : Nat → Nat → List Nat
  | 0, _ => []
  | w + 1, n => n % 256 :: natLEBytes w (n / 256)

/-- Reassemble a natural number from little-endian bytes (each byte taken mod 256). -/
def natFromLE (bs : List Nat) : Nat :=
  bs.foldr (fun b acc => b % 256 + 256 * acc) 0

/-- `bincode::serialize` of a `MessageId` (a newtype over an i64): the 8-byte
little-endian two's-complement encoding. Serialization of an i64 never fails, so the
`.expect("bincode serialize failed")` in `Cache::set` never fires. -/
def bincodeSerI64 (i : Int) : List Nat :=
  natLEBytes 8 (i % 18446744073709551616).toNat

/-- `bincode::deserialize::<i64>` of a stored value: an 8-byte little-endian
two's-complement read; any other length is a deserialization error (`none`). -/
def bincodeDeserI64 (bs : List Nat) : Option Int :=
  if bs.length = 8 then
    some (if natFromLE bs < 9223372036854775808
          then (natFromLE bs : Int)
          else (natFromLE bs : Int) - 18446744073709551616)
  else none

theorem natLEBytes_length (w n : Nat) : (natLEBytes w n).length = w := by
  induction w generalizing n with
  | zero => rfl
  | succ w ih => simp [natLEBytes, ih]

theorem natFromLE_natLEBytes (w n : Nat) (h : n < 256 ^ w) :
    natFromLE (natLEBytes w n) = n := by
  induction w generalizing n with
  | zero =>
    simp [natLEBytes, natFromLE]
    omega
  | succ w ih =>
    have hdiv : n / 256 < 256 ^ w := by
      rw [Nat.div_lt_iff_lt_mul (by norm_num)]
      calc n < 256 ^ (w + 1) := h
        _ = 256 ^ w * 256 := by ring
    simp only [natLEBytes, natFromLE, List.foldr_cons]
    have := ih (n / 256) hdiv
    simp only [natFromLE] at this
    rw [this]
    omega

theorem bincode_roundtrip (i : Int)
    (h1 : -9223372036854775808 ≤ i) (h2 : i ≤ 9223372036854775807) :
    bincodeDeserI64 (bincodeSerI64 i) = some i := by
  have hlen : (bincodeSerI64 i).length = 8 := natLEBytes_length 8 _
  have hmod1 : 0 ≤ i % 18446744073709551616 := by omega
  have hmod2 : i % 18446744073709551616 < 18446744073709551616 := by omega
  have hlt : (i % 18446744073709551616).toNat < 256 ^ 8 := by
    norm_num
    omega
  have hval : natFromLE (bincodeSerI64 i) = (i % 18446744073709551616).toNat := by
    simpa [bincodeSerI64] using natFromLE_natLEBytes 8 (i % 18446744073709551616).toNat hlt
  rw [bincodeDeserI64, if_pos hlen, hval]
  by_cases hb : (i % 18446744073709551616).toNat < 9223372036854775808
  · rw [if_pos hb, Option.some.injEq]
    omega
  · rw [if_neg hb, Option.some.injEq]
    omega

/-! ### Decimal printing (Rust `Display` for i64, used by `format!` and serde_json) -/

/-- The ASCII character of a decimal digit. -/
def digitChar (d : Nat) : Char := Char.ofNat (48 + d)

/-- Little-endian decimal digit characters of `n`; the first argument is fuel
(`n` itself is always enough). -/
def natDecimalAux : Nat → Nat → List Char
  | 0, _ => []
  | fuel + 1, n => if n = 0 then [] else digitChar (n % 10) :: natDecimalAux fuel (n / 10)

/-- Decimal digit characters of a natural number, most significant first. -/
def natDecimal (n : Nat) : List Char :=
  if n = 0 then ['0'] else (natDecimalAux n n).reverse

/-- Decimal representation of an i64, as printed by Rust's `Display` (and by
serde_json for a JSON integer): an optional minus sign followed by digits. -/
def intDecimal (i : Int) : List Char :=
  if i < 0 then '-' :: natDecimal i.natAbs else natDecimal i.toNat

/-- Decimal representation of an i64 as a `String`. -/
def intDecimalStr (i : Int) : String := String.mk (intDecimal i)

theorem natDecimalAux_eq (fuel n : Nat) (h : n ≤ fuel) :
    natDecimalAux fuel n = (Nat.digits 10 n).map digitChar := by
  induction fuel generalizing n with
  | zero =>
    have : n = 0 := by omega
    subst this
    simp [natDecimalAux]
  | succ fuel ih =>
    by_cases hn : n = 0
    · subst hn; simp [natDecimalAux]
    · have hpos : 0 < n := Nat.pos_of_ne_zero hn
      rw [Nat.digits_def' (by norm_num : 1 < 10) hpos]
      have hdiv : n / 10 ≤ fuel := by
        have := Nat.div_lt_self hpos (by norm_num : 1 < 10)
        omega
      simp [natDecimalAux, hn, ih (n / 10) hdiv]

theorem natDecimal_eq (n : Nat) (h : n ≠ 0) :
    natDecimal n = ((Nat.digits 10 n).map digitChar).reverse := by
  simp [natDecimal, h, natDecimalAux_eq n n le_rfl]

/-! ### JSON scanning primitives (the fragment of serde_json the Callback codec uses) -/

/-- JSON insignificant whitespace, as skipped by serde_json between tokens. -/
def jsonWs (c : Char) : Bool := c = ' ' || c = '\t' || c = '\n' || c = '\r'

/-- ASCII decimal digit test. -/
def isDigitChar (c : Char) : Bool := 48 ≤ c.toNat && c.toNat ≤ 57

/-- Value of a string of decimal digit characters, most significant first. -/
def digitsVal (cs : List Char) : Nat :=
  cs.foldl (fun a c => a * 10 + (c.toNat - 48)) 0

/-- Skip JSON whitespace. -/
def skipWs : List Char → List Char
  | [] => []
  | c :: cs => if jsonWs c then skipWs cs else c :: cs

/-- Consume one expected character. -/
def expectChar (c : Char) : List Char → Option (List Char)
  | [] => none
  | x :: xs => if x = c then some xs else none

/-- Consume an expected literal character sequence. -/
def expectSeq : List Char → List Char → Option (List Char)
  | [], cs => some cs
  | _ :: _, [] => none
  | l :: ls, c :: cs => if c = l then expectSeq ls cs else none

/-- Parse a JSON natural-number token: one or more digits, with no redundant
leading zero (JSON forbids `01`). Returns the value and the rest of the input. -/
def parseNatToken : List Char → Option (Nat × List Char)
  | [] => none
  | c :: cs =>
    if c = '0' then
      match cs with
      | [] => some (0, [])
      | d :: _ => if isDigitChar d then none else some (0, cs)
    else if isDigitChar c then
      some (digitsVal (c :: cs.takeWhile isDigitChar), cs.dropWhile isDigitChar)
    else none

/-- Parse a JSON integer token: an optional minus sign followed by digits
(the grammar serde_json accepts when deserializing an integer). -/
def parseJsonInt (cs : List Char) : Option (Int × List Char) :=
  match cs with
  | [] => none
  | c :: rest =>
    if c = '-' then (parseNatToken rest).map (fun p => (-(p.1 : Int), p.2))
    else (parseNatToken cs).map (fun p => ((p.1 : Int), p.2))

/-! ### The Callback payload codec (src/api.rs, `enum Callback` with serde_json) -/

/-- `enum Callback { Offtopic { id: MessageId } }`: the payload attached to the
confirmation prompt's inline button. -/
inductive Callback where
  | Offtopic (id : Int)
deriving DecidableEq

/-- `Callback::to_string` via `serde_json::to_string`: the externally tagged
encoding `{"Offtopic":{"id":<decimal>}}` (serialization of this enum never fails,
so the `Result` wrapper in the source is always `Ok`). -/
def Callback.to_string : Callback → String
  | .Offtopic id =>
    String.mk ("\x7b\"Offtopic\":\x7b\"id\":".data ++ intDecimal id ++ "\x7d\x7d".data)

/-- Consume the fixed token sequence `{ "Offtopic" : { "id" :` of the externally
tagged encoding, with JSON whitespace allowed between tokens, as serde_json does.
(serde_json would additionally accept escaped spellings of the key strings and
skip unknown fields; those leniencies are orthogonal to every claim below.) -/
def stripHead (cs : List Char) : Option (List Char) := do
  let cs1 ← expectChar '\x7b' (skipWs cs)
  let cs2 ← expectSeq "\"Offtopic\"".data (skipWs cs1)
  let cs3 ← expectChar ':' (skipWs cs2)
  let cs4 ← expectChar '\x7b' (skipWs cs3)
  let cs5 ← expectSeq "\"id\"".data (skipWs cs4)
  let cs6 ← expectChar ':' (skipWs cs5)
  some cs6

/-- After the integer: the two closing braces and end of input, with whitespace
allowed; the parsed integer must fit in an i64 (serde_json errors otherwise). -/
def finishObject (id : Int) (cs : List Char) : Except String Callback :=
  match expectChar '\x7d' (skipWs cs) with
  | none => Except.error "invalid callback data"
  | some cs1 =>
    match expectChar '\x7d' (skipWs cs1) with
    | none => Except.error "invalid callback data"
    | some cs2 =>
      match skipWs cs2 with
      | [] =>
        if -9223372036854775808 ≤ id ∧ id ≤ 9223372036854775807
        then Except.ok (Callback.Offtopic id)
        else Except.error "invalid value: integer out of range of i64"
      | _ :: _ => Except.error "trailing characters"

/-- The character-level body of `Callback::from_string`. -/
def fromChars (cs : List Char) : Except String Callback :=
  match stripHead cs with
  | none => Except.error "invalid callback data"
  | some rest =>
    match parseJsonInt (skipWs rest) with
    | none => Except.error "invalid type: expected an integer"
    | some (id, rest1) => finishObject id rest1

/-- `Callback::from_string` via `serde_json::from_str`: decodes the externally
tagged encoding of the one known variant, failing with an error (never a default
value) on anything else. -/
def Callback.from_string (s : String) : Except String Callback :=
  fromChars s.data

/-! ### Correctness of the decimal printer against the parser -/

theorem digitChar_toNat (d : Nat) (h : d < 10) : (digitChar d).toNat = 48 + d := by
  interval_cases d <;> decide

theorem isDigitChar_digitChar (d : Nat) (h : d < 10) : isDigitChar (digitChar d) = true := by
  interval_cases d <;> decide

theorem digitChar_ne_zero_char (d : Nat) (h0 : d ≠ 0) (h : d < 10) : digitChar d ≠ '0' := by
  interval_cases d <;> simp_all <;> decide

theorem isDigitChar_not_ws (c : Char) (h : isDigitChar c = true) : jsonWs c = false := by
  by_contra hw
  simp only [Bool.not_eq_false, jsonWs, Bool.or_eq_true, decide_eq_true_eq] at hw
  rcases hw with ((rfl | rfl) | rfl) | rfl <;> simp [isDigitChar] at h

theorem isDigitChar_ne_minus (c : Char) (h : isDigitChar c = true) : c ≠ '-' := by
  rintro rfl
  simp [isDigitChar] at h

theorem isDigitChar_ne_slash (c : Char) (h : isDigitChar c = true) : c ≠ '/' := by
  rintro rfl
  simp [isDigitChar] at h

theorem mem_natDecimal_digit (n : Nat) (c : Char) (hc : c ∈ natDecimal n) :
    isDigitChar c = true := by
  by_cases hn : n = 0
  · subst hn
    simp [natDecimal] at hc
    subst hc
    decide
  · rw [natDecimal_eq n hn] at hc
    rw [List.mem_reverse, List.mem_map] at hc
    obtain ⟨d, hd, rfl⟩ := hc
    exact isDigitChar_digitChar d (Nat.digits_lt_base (by norm_num) hd)

theorem natDecimal_ne_nil (n : Nat) : natDecimal n ≠ [] := by
  by_cases hn : n = 0
  · subst hn; simp [natDecimal]
  · rw [natDecimal_eq n hn]
    simp [Nat.digits_ne_nil_iff_ne_zero, hn]

theorem natDecimal_head_digit (n : Nat) (c : Char) (cs : List Char)
    (h : natDecimal n = c :: cs) : isDigitChar c = true :=
  mem_natDecimal_digit n c (h ▸ List.mem_cons_self c cs)

theorem natDecimal_head_ne_zero (n : Nat) (hn : n ≠ 0) (c : Char) (cs : List Char)
    (h : natDecimal n = c :: cs) : c ≠ '0' := by
  rw [natDecimal_eq n hn] at h
  have hnil : Nat.digits 10 n ≠ [] := Nat.digits_ne_nil_iff_ne_zero.mpr hn
  have hlast : (Nat.digits 10 n).getLast hnil ≠ 0 := Nat.getLast_digit_ne_zero 10 hn
  have hhead : ((Nat.digits 10 n).map digitChar).getLast? = some c := by
    rw [← List.head?_reverse, h]
    rfl
  rw [List.getLast?_map, List.getLast?_eq_getLast _ hnil, Option.map_some'] at hhead
  have hc : c = digitChar ((Nat.digits 10 n).getLast hnil) := by
    injection hhead with hh
    exact hh.symm
  subst hc
  exact digitChar_ne_zero_char _ hlast
    (Nat.digits_lt_base (by norm_num) (List.getLast_mem hnil))

theorem digitsVal_rev_map (L : List Nat) (h : ∀ d ∈ L, d < 10) :
    digitsVal ((L.map digitChar).reverse) = Nat.ofDigits 10 L := by
  induction L with
  | nil => simp [digitsVal, Nat.ofDigits]
  | cons d ds ih =>
    have hd : d < 10 := h d (List.mem_cons_self d ds)
    have hds : ∀ x ∈ ds, x < 10 := fun x hx => h x (List.mem_cons_of_mem d hx)
    simp only [List.map_cons, List.reverse_cons, digitsVal, List.foldl_append,
      List.foldl_cons, List.foldl_nil]
    have ihv := ih hds
    simp only [digitsVal] at ihv
    rw [ihv, digitChar_toNat d hd, Nat.ofDigits_cons]
    ring_nf
    omega

theorem digitsVal_natDecimal (n : Nat) : digitsVal (natDecimal n) = n := by
  by_cases hn : n = 0
  · subst hn; decide
  · rw [natDecimal_eq n hn, digitsVal_rev_map _ (fun d hd => Nat.digits_lt_base (by norm_num) hd),
      Nat.ofDigits_digits]

theorem takeWhile_append_of (p : Char → Bool) (xs ys : List Char)
    (hx : ∀ x ∈ xs, p x = true) (hy : ∀ c, ys.head? = some c → p c = false) :
    (xs ++ ys).takeWhile p = xs := by
  induction xs with
  | nil =>
    cases ys with
    | nil => rfl
    | cons y ys' => simp [List.takeWhile_cons, hy y rfl]
  | cons x xs' ih =>
    have hpx : p x = true := hx x (List.mem_cons_self x xs')
    simp only [List.cons_append, List.takeWhile_cons, hpx, if_true]
    rw [ih (fun a ha => hx a (List.mem_cons_of_mem x ha))]

theorem dropWhile_append_of (p : Char → Bool) (xs ys : List Char)
    (hx : ∀ x ∈ xs, p x = true) (hy : ∀ c, ys.head? = some c → p c = false) :
    (xs ++ ys).dropWhile p = ys := by
  induction xs with
  | nil =>
    cases ys with
    | nil => rfl
    | cons y ys' => simp [List.dropWhile_cons, hy y rfl]
  | cons x xs' ih =>
    have hpx : p x = true := hx x (List.mem_cons_self x xs')
    simp only [List.cons_append, List.dropWhile_cons, hpx, if_true]
    exact ih (fun a ha => hx a (List.mem_cons_of_mem x ha))

theorem parseNatToken_decimal (n : Nat) (r : List Char)
    (hr : ∀ c, r.head? = some c → isDigitChar c = false) :
    parseNatToken (natDecimal n ++ r) = some (n, r) := by
  by_cases hn : n = 0
  · subst hn
    show parseNatToken (['0'] ++ r) = some (0, r)
    cases r with
    | nil => rfl
    | cons c r' => simp [parseNatToken, hr c rfl]
  · obtain ⟨c, cs, hcons⟩ : ∃ c cs, natDecimal n = c :: cs := by
      cases hh : natDecimal n with
      | nil => exact absurd hh (natDecimal_ne_nil n)
      | cons c cs => exact ⟨c, cs, rfl⟩
    have hcd : isDigitChar c = true := natDecimal_head_digit n c cs hcons
    have hc0 : c ≠ '0' := natDecimal_head_ne_zero n hn c cs hcons
    have hcsd : ∀ x ∈ cs, isDigitChar x = true := by
      intro x hx
      exact mem_natDecimal_digit n x (hcons ▸ List.mem_cons_of_mem c hx)
    have hval : digitsVal (c :: cs) = n := by
      rw [← hcons, digitsVal_natDecimal]
    rw [hcons]
    simp [parseNatToken, hc0, hcd,
      takeWhile_append_of isDigitChar cs r hcsd hr,
      dropWhile_append_of isDigitChar cs r hcsd hr, hval]

theorem parseJsonInt_decimal (i : Int) (r : List Char)
    (hr : ∀ c, r.head? = some c → isDigitChar c = false) :
    parseJsonInt (intDecimal i ++ r) = some (i, r) := by
  by_cases hi : i < 0
  · have hparse := parseNatToken_decimal i.natAbs r hr
    simp only [intDecimal, if_pos hi, List.cons_append]
    simp [parseJsonInt, hparse]
    rw [abs_of_nonpos (by omega : i ≤ 0), neg_neg]
  · obtain ⟨c, cs, hcons⟩ : ∃ c cs, natDecimal i.toNat = c :: cs := by
      cases hh : natDecimal i.toNat with
      | nil => exact absurd hh (natDecimal_ne_nil _)
      | cons c cs => exact ⟨c, cs, rfl⟩
    have hcd : isDigitChar c = true := natDecimal_head_digit _ c cs hcons
    have hcm : c ≠ '-' := isDigitChar_ne_minus c hcd
    have hparse := parseNatToken_decimal i.toNat r hr
    simp only [intDecimal, if_neg hi] at hparse ⊢
    rw [hcons] at hparse ⊢
    rw [List.cons_append] at hparse ⊢
    simp [parseJsonInt, hcm, hparse]
    omega

theorem skipWs_not_ws (cs : List Char) (h : ∀ c, cs.head? = some c → jsonWs c = false) :
    skipWs cs = cs := by
  cases cs with
  | nil => rfl
  | cons c cs' => simp [skipWs, h c rfl]

theorem skipWs_decimal (i : Int) (r : List Char) :
    skipWs (intDecimal i ++ r) = intDecimal i ++ r := by
  apply skipWs_not_ws
  intro c hc
  by_cases hi : i < 0
  · simp only [intDecimal, if_pos hi, List.cons_append, List.head?_cons,
      Option.some.injEq] at hc
    cases hc
    decide
  · obtain ⟨c', cs, hcons⟩ : ∃ c' cs, natDecimal i.toNat = c' :: cs := by
      cases hh : natDecimal i.toNat with
      | nil => exact absurd hh (natDecimal_ne_nil _)
      | cons c' cs => exact ⟨c', cs, rfl⟩
    have hcd : isDigitChar c' = true := natDecimal_head_digit _ c' cs hcons
    simp only [intDecimal, if_neg hi, hcons, List.cons_append, List.head?_cons,
      Option.some.injEq] at hc
    cases hc
    exact isDigitChar_not_ws _ hcd

/-! ### Round-trip of the Callback codec -/

theorem stripHead_encode (rest : List Char) :
    stripHead ("\x7b\"Offtopic\":\x7b\"id\":".data ++ rest) = some rest := rfl

theorem fromChars_encode (id : Int)
    (h1 : -9223372036854775808 ≤ id) (h2 : id ≤ 9223372036854775807) :
    fromChars ("\x7b\"Offtopic\":\x7b\"id\":".data ++ (intDecimal id ++ "\x7d\x7d".data)) =
      Except.ok (Callback.Offtopic id) := by
  have hhr : ∀ c, ("\x7d\x7d".data : List Char).head? = some c → isDigitChar c = false := by
    decide
  have hstrip := stripHead_encode (intDecimal id ++ "\x7d\x7d".data)
  have hint := parseJsonInt_decimal id ("\x7d\x7d".data) hhr
  simp only [fromChars, hstrip, skipWs_decimal, hint]
  show (if -9223372036854775808 ≤ id ∧ id ≤ 9223372036854775807
        then Except.ok (Callback.Offtopic id)
        else Except.error "invalid value: integer out of range of i64") =
      Except.ok (Callback.Offtopic id)
  rw [if_pos ⟨h1, h2⟩]

theorem from_string_to_string (id : Int)
    (h1 : -9223372036854775808 ≤ id) (h2 : id ≤ 9223372036854775807) :
    Callback.from_string (Callback.to_string (Callback.Offtopic id)) =
      Except.ok (Callback.Offtopic id) := by
  have hdata : (Callback.to_string (Callback.Offtopic id)).data =
      "\x7b\"Offtopic\":\x7b\"id\":".data ++ (intDecimal id ++ "\x7d\x7d".data) := by
    show ("\x7b\"Offtopic\":\x7b\"id\":".data ++ intDecimal id ++ "\x7d\x7d".data) =
      "\x7b\"Offtopic\":\x7b\"id\":".data ++ (intDecimal id ++ "\x7d\x7d".data)
    rw [List.append_assoc]
  unfold Callback.from_string
  rw [hdata]
  exact fromChars_encode id h1 h2

theorem from_string_ok_range (s : String) (id : Int)
    (h : Callback.from_string s = Except.ok (Callback.Offtopic id)) :
    -9223372036854775808 ≤ id ∧ id ≤ 9223372036854775807 := by
  unfold Callback.from_string fromChars at h
  cases hs : stripHead s.data with
  | none =>
    simp only [hs] at h
    exact absurd h (by simp)
  | some rest =>
    simp only [hs] at h
    cases hp : parseJsonInt (skipWs rest) with
    | none =>
      simp only [hp] at h
      exact absurd h (by simp)
    | some p =>
      obtain ⟨pid, prest⟩ := p
      simp only [hp] at h
      unfold finishObject at h
      cases he1 : expectChar '\x7d' (skipWs prest) with
      | none =>
        simp only [he1] at h
        exact absurd h (by simp)
      | some cs1 =>
        simp only [he1] at h
        cases he2 : expectChar '\x7d' (skipWs cs1) with
        | none =>
          simp only [he2] at h
          exact absurd h (by simp)
        | some cs2 =>
          simp only [he2] at h
          cases he3 : skipWs cs2 with
          | cons c cs =>
            simp only [he3] at h
            exact absurd h (by simp)
          | nil =>
            simp only [he3] at h
            by_cases hr : -9223372036854775808 ≤ pid ∧ pid ≤ 9223372036854775807
            · rw [if_pos hr] at h
              have : pid = id := by
                injection h with h'
                injection h'
              subst this
              exact hr
            · rw [if_neg hr] at h
              exact absurd h (by simp)

/-- Every encoded Callback payload begins with the JSON object brace; in
particular no string produced by `Callback::to_string` starts with whitespace. -/
theorem to_string_head_brace (t : Callback) :
    (Callback.to_string t).data.head? = some '\x7b' := by
  cases t
  rfl

/-! ### The correlation cache (src/cache.rs): `struct Cache(sled::Db)` -/

/-- Model of the sled database backing the cache: the on-disk contents as a pure
map from string keys to byte-string values, plus the set of keys whose
storage-layer access currently fails with an IO error (both `sled::Db::get` and
`sled::Db::insert` return `Err` for such keys). -/
structure Sled where
  store : String → Option (List Nat)
  ioErrors : List String

/-- `pub struct Cache(sled::Db)`. -/
structure Cache where
  db : Sled

/-- `Cache::new` opens the sled database at the configured path; the opened
database contents are the model's `Sled` value. -/
def Cache.new (db : Sled) : Cache := ⟨db⟩

/-- The physical key both `Cache::get` and `Cache::set` build:
`format!("{}/{}", time, user_name)`. -/
def Cache.key (time : Int) (user_name : String) : String :=
  String.mk (intDecimal time ++ '/' :: user_name.data)

/-- `Cache::get`: reads the sled value at the derived key. A storage-layer
failure hits `.expect("read from cache failed")` and a value that does not
deserialize as an i64 hits `.expect("invalid value")` — both are panics that
tear down the process; a missing key is the normal `None` outcome. -/
def Cache.get (c : Cache) (time : Int) (user_name : String) : PanicOr (Option Int) :=
  if c.db.ioErrors.contains (Cache.key time user_name) then
    PanicOr.panic "read from cache failed"
  else
    match c.db.store (Cache.key time user_name) with
    | none => PanicOr.ok none
    | some v =>
      match bincodeDeserI64 v with
      | none => PanicOr.panic "invalid value"
      | some id => PanicOr.ok (some id)

/-- `Cache::set`: unconditionally upserts the bincode-encoded message id at the
derived key; a storage-layer failure hits `.expect("write into cache failed")`. -/
def Cache.set (c : Cache) (time : Int) (user_name : String) (m : Int) : PanicOr Cache :=
  if c.db.ioErrors.contains (Cache.key time user_name) then
    PanicOr.panic "write into cache failed"
  else
    PanicOr.ok ⟨⟨fun k => if k = Cache.key time user_name then some (bincodeSerI64 m) else c.db.store k,
      c.db.ioErrors⟩⟩

theorem mem_intDecimal_not_slash (i : Int) (c : Char) (hc : c ∈ intDecimal i) : c ≠ '/' := by
  unfold intDecimal at hc
  by_cases hi : i < 0
  · rw [if_pos hi] at hc
    rcases List.mem_cons.mp hc with rfl | hmem
    · decide
    · exact isDigitChar_ne_slash c (mem_natDecimal_digit _ c hmem)
  · rw [if_neg hi] at hc
    exact isDigitChar_ne_slash c (mem_natDecimal_digit _ c hc)

theorem append_slash_inj : ∀ (a1 a2 b1 b2 : List Char),
    (∀ c ∈ a1, c ≠ '/') → (∀ c ∈ a2, c ≠ '/') →
    a1 ++ '/' :: b1 = a2 ++ '/' :: b2 → a1 = a2 ∧ b1 = b2
  | [], [], _, _, _, _, h => by simpa using h
  | [], x :: xs, _, _, _, ha2, h => by
    simp only [List.nil_append, List.cons_append, List.cons.injEq] at h
    exact absurd h.1.symm (ha2 x (List.mem_cons_self x xs))
  | x :: xs, [], _, _, ha1, _, h => by
    simp only [List.cons_append, List.nil_append, List.cons.injEq] at h
    exact absurd h.1 (ha1 x (List.mem_cons_self x xs))
  | x :: xs, y :: ys, b1, b2, ha1, ha2, h => by
    simp only [List.cons_append, List.cons.injEq] at h
    have hr := append_slash_inj xs ys b1 b2
      (fun c hc => ha1 c (List.mem_cons_of_mem x hc))
      (fun c hc => ha2 c (List.mem_cons_of_mem y hc)) h.2
    exact ⟨by rw [h.1, hr.1], hr.2⟩

theorem intDecimal_inj (i1 i2 : Int) (h : intDecimal i1 = intDecimal i2) : i1 = i2 := by
  have hr : ∀ c, ([] : List Char).head? = some c → isDigitChar c = false := by
    intro c hc
    simp at hc
  have p1 := parseJsonInt_decimal i1 [] hr
  have p2 := parseJsonInt_decimal i2 [] hr
  rw [List.append_nil] at p1 p2
  rw [h, p2] at p1
  injection p1 with hp
  injection hp with h1 h2
  exact h1.symm

/-- The physical key derivation is injective: two logical (time, user_name)
pairs collide only if they are equal — exact equality on both fields. -/
theorem Cache.key_inj (t1 t2 : Int) (u1 u2 : String)
    (h : Cache.key t1 u1 = Cache.key t2 u2) : t1 = t2 ∧ u1 = u2 := by
  have hdata : intDecimal t1 ++ '/' :: u1.data = intDecimal t2 ++ '/' :: u2.data :=
    congrArg String.data h
  have hsplit := append_slash_inj (intDecimal t1) (intDecimal t2) u1.data u2.data
    (fun c hc => mem_intDecimal_not_slash t1 c hc)
    (fun c hc => mem_intDecimal_not_slash t2 c hc) hdata
  refine ⟨intDecimal_inj t1 t2 hsplit.1, ?_⟩
  cases u1
  cases u2
  exact congrArg String.mk hsplit.2

/-! ### Last-write-wins behaviour of the cache -/

/-- Run a sequence of `Cache::set` operations, given as (time, user_name, id)
triples, left to right. -/
def Cache.runSets : Cache → List (Int × String × Int) → PanicOr Cache
  | c, [] => PanicOr.ok c
  | c, (t, u, m) :: rest =>
    match Cache.set c t u m with
    | PanicOr.panic p => PanicOr.panic p
    | PanicOr.ok c1 => Cache.runSets c1 rest

/-- The value of the most recent put for exactly the key (t, u), accumulated
left to right (`acc` is the most recent match seen so far). -/
def lastPutFrom (t : Int) (u : String) : Option Int → List (Int × String × Int) → Option Int
  | acc, [] => acc
  | acc, (t', u', m) :: rest =>
    lastPutFrom t u (if t' = t ∧ u' = u then some m else acc) rest

/-- The value of the most recent put for exactly the key (t, u), if any. -/
def lastPut (t : Int) (u : String) (ops : List (Int × String × Int)) : Option Int :=
  lastPutFrom t u none ops

/-- A cache over an empty, error-free sled database. -/
def emptyCache : Cache := ⟨⟨fun _ => none, []⟩⟩

/-- Apply `Cache.get` on the result of a sequence of sets, propagating panics. -/
def PanicOr.bindGet : PanicOr Cache → Int → String → PanicOr (Option Int)
  | PanicOr.panic p, _, _ => PanicOr.panic p
  | PanicOr.ok c, t, u => Cache.get c t u

/-- Whether a `PanicOr` is a non-panic result. -/
def PanicOr.isOkB {α : Type} : PanicOr α → Bool
  | PanicOr.panic _ => false
  | PanicOr.ok _ => true

theorem lastPutFrom_eq (t : Int) (u : String) (acc : Option Int)
    (ops : List (Int × String × Int)) :
    lastPutFrom t u acc ops =
      match lastPut t u ops with
      | some m => some m
      | none => acc := by
  induction ops generalizing acc with
  | nil => rfl
  | cons o rest ih =>
    obtain ⟨t', u', m⟩ := o
    show lastPutFrom t u (if t' = t ∧ u' = u then some m else acc) rest = _
    rw [ih]
    have hc : lastPut t u ((t', u', m) :: rest) =
        lastPutFrom t u (if t' = t ∧ u' = u then some m else none) rest := rfl
    rw [hc, ih]
    by_cases hcond : t' = t ∧ u' = u
    · rw [if_pos hcond, if_pos hcond]
      cases lastPut t u rest <;> rfl
    · rw [if_neg hcond, if_neg hcond]
      cases lastPut t u rest <;> rfl

theorem lastPutFrom_mem (t : Int) (u : String) (acc : Option Int)
    (ops : List (Int × String × Int)) (m : Int)
    (h : lastPutFrom t u acc ops = some m) : (t, u, m) ∈ ops ∨ acc = some m := by
  induction ops generalizing acc with
  | nil => exact Or.inr h
  | cons o rest ih =>
    obtain ⟨t', u', m'⟩ := o
    rcases ih _ h with hmem | hacc
    · exact Or.inl (List.mem_cons_of_mem _ hmem)
    · by_cases hcond : t' = t ∧ u' = u
      · rw [if_pos hcond] at hacc
        injection hacc with hm
        obtain ⟨rfl, rfl⟩ := hcond
        subst hm
        exact Or.inl (List.mem_cons_self _ _)
      · rw [if_neg hcond] at hacc
        exact Or.inr hacc

theorem lastPut_mem (t : Int) (u : String) (ops : List (Int × String × Int)) (m : Int)
    (h : lastPut t u ops = some m) : (t, u, m) ∈ ops := by
  rcases lastPutFrom_mem t u none ops m h with hmem | hacc
  · exact hmem
  · exact absurd hacc (by simp)

theorem runSets_spec (c : Cache) (ops : List (Int × String × Int))
    (hio : c.db.ioErrors = []) :
    ∃ c1, Cache.runSets c ops = PanicOr.ok c1 ∧ c1.db.ioErrors = [] ∧
      ∀ t u, c1.db.store (Cache.key t u) =
        (match lastPut t u ops with
         | some m => some (bincodeSerI64 m)
         | none => c.db.store (Cache.key t u)) := by
  induction ops generalizing c with
  | nil => exact ⟨c, rfl, hio, fun t u => rfl⟩
  | cons o rest ih =>
    obtain ⟨t0, u0, m0⟩ := o
    have hset : Cache.set c t0 u0 m0 = PanicOr.ok
        ⟨⟨fun k => if k = Cache.key t0 u0 then some (bincodeSerI64 m0) else c.db.store k,
          c.db.ioErrors⟩⟩ := by
      unfold Cache.set
      rw [hio]
      rfl
    obtain ⟨c2, hrun, hio2, hstore⟩ := ih
      ⟨⟨fun k => if k = Cache.key t0 u0 then some (bincodeSerI64 m0) else c.db.store k,
        c.db.ioErrors⟩⟩ hio
    refine ⟨c2, ?_, hio2, ?_⟩
    · show (match Cache.set c t0 u0 m0 with
        | PanicOr.panic p => PanicOr.panic p
        | PanicOr.ok c1 => Cache.runSets c1 rest) = PanicOr.ok c2
      rw [hset]
      exact hrun
    · intro t u
      rw [hstore t u]
      have hc : lastPut t u ((t0, u0, m0) :: rest) =
          lastPutFrom t u (if t0 = t ∧ u0 = u then some m0 else none) rest := rfl
      rw [hc, lastPutFrom_eq]
      cases hl : lastPut t u rest with
      | some m' => rfl
      | none =>
        by_cases hcond : t0 = t ∧ u0 = u
        · rw [if_pos hcond]
          show (if Cache.key t u = Cache.key t0 u0
              then some (bincodeSerI64 m0) else c.db.store (Cache.key t u)) =
            some (bincodeSerI64 m0)
          rw [if_pos (by rw [hcond.1, hcond.2])]
        · rw [if_neg hcond]
          show (if Cache.key t u = Cache.key t0 u0
              then some (bincodeSerI64 m0) else c.db.store (Cache.key t u)) =
            c.db.store (Cache.key t u)
          rw [if_neg (fun heq => hcond
            ⟨(Cache.key_inj t t0 u u0 heq).1.symm, (Cache.key_inj t t0 u u0 heq).2.symm⟩)]

/-! ### Telegram data model (the fragment of the telegram-bot crate the code uses) -/

/-- A Telegram user: its i64 id and display name (`from.first_name` is only used
in log lines). -/
structure User where
  id : Int
  first_name : String
deriving DecidableEq

/-- The chat a message was sent in. For a private chat the chat id equals the
peer user's id. -/
inductive MessageChat where
  | Private (user : User)
  | Group (id : Int)
  | Supergroup (id : Int)
  | Unknown (id : Int)
deriving DecidableEq

/-- `m.chat.id()`. -/
def MessageChat.id : MessageChat → Int
  | .Private u => u.id
  | .Group i => i
  | .Supergroup i => i
  | .Unknown i => i

/-- The origin of a forwarded message: a plain user, a channel post, or a
sender hidden by privacy settings. -/
inductive ForwardFrom where
  | User (user : User)
  | Channel (channel_id : Int) (message_id : Int)
  | ChannelHiddenUser (sender_name : String)
deriving DecidableEq

/-- Whether a forward origin is a plain user. -/
def ForwardFrom.isUser : ForwardFrom → Bool
  | .User _ => true
  | _ => false

/-- Forward metadata on a message: original send date and origin. -/
structure Forward where
  date : Int
  from_ : ForwardFrom
deriving DecidableEq

/-- An inbound Telegram message (`from` is a Lean keyword, hence `from_`). -/
structure Message where
  id : Int
  from_ : User
  date : Int
  chat : MessageChat
  forward : Option Forward
deriving DecidableEq

/-- An inbound callback query (an interactive-control activation): its id and
the optional payload attached to the pressed button. -/
structure CallbackQuery where
  id : String
  from_ : User
  data : Option String
deriving DecidableEq

/-- Rich-text formatting mode of an outbound message. -/
inductive ParseMode where
  | Markdown
  | MarkdownV2
  | Html
deriving DecidableEq

/-- An inline-keyboard button: either a callback button carrying a payload
string, or a URL link button. -/
inductive InlineKeyboardButton where
  | callback (text : String) (callback_data : String)
  | url (text : String) (target : String)
deriving DecidableEq

/-- An outbound `SendMessage` request (the fields this program sets). -/
structure SendMessage where
  chat_id : Int
  text : String
  reply_to_message_id : Option Int
  reply_markup : Option (List (List InlineKeyboardButton))
  parse_mode : Option ParseMode
deriving DecidableEq

/-- An outbound platform action: sending a message or acknowledging a callback
query (`c.acknowledge()`). -/
inductive BotAction where
  | sendMessage (m : SendMessage)
  | acknowledge (callback_query_id : String)
deriving DecidableEq

/-- The kinds of updates the bot distinguishes; everything else is ignored. -/
inductive UpdateKind where
  | Message (m : Message)
  | CallbackQuery (c : CallbackQuery)
  | Other
deriving DecidableEq

/-- An inbound update from the Telegram long-poll stream. -/
structure Update where
  id : Int
  kind : UpdateKind
deriving DecidableEq

/-- src/config.rs: `pub struct Config`. -/
structure Config where
  token : String
  db : String
  admin_group : Int
  main_group : Int
  offtopic_group : String
  meta_group : String
deriving DecidableEq

/-! ### The API handlers (src/api.rs) -/

/-- `pub struct API`: configuration, the correlation cache (a `RefCell` in the
source, explicit state here) and the admin set fetched once at startup
(a `HashSet<UserId>` in the source, modelled as a list queried by membership). -/
structure API where
  cfg : Config
  cache : Cache
  admins : List Int

/-- `API::new`: builds the connector, fetches `GetChatAdministrators` once for
the main group and collects the admin user ids; a fetch error is only logged
(`error!("get chat administrator: ..")`) and leaves the set empty. The function
then returns `Ok`. `adminFetch` is the platform's reply; `db` is the opened
sled database of `Cache::new`. -/
def API.new (cfg : Config) (adminFetch : Except String (List Int)) (db : Sled) :
    Except String API :=
  Except.ok
    { cfg := cfg
      cache := Cache.new db
      admins := match adminFetch with
        | Except.error _ => []
        | Except.ok l => l }

/-- `API::get_original_message_id`: `None` unless the message carries forward
metadata whose origin is a plain user; otherwise look up the cache. The source
passes `(user.id, forward.date)` positionally into `Cache::get(time, user_name)`,
the second argument going through `Display` formatting in the key. -/
def API.get_original_message_id (a : API) (m : Message) : PanicOr (Option Int) :=
  match m.forward with
  | none => PanicOr.ok none
  | some fwd =>
    match fwd.from_ with
    | ForwardFrom.User user => Cache.get a.cache user.id (intDecimalStr fwd.date)
    | _ => PanicOr.ok none

/-- `API::ask_admin`: ignore non-admin senders (warn only, `Ok(())`); build the
confirmation prompt as a text reply to the forwarded copy; fail with
`anyhow!("message id not found")` if the original message cannot be resolved;
otherwise attach one inline keyboard row with the single flag-offtopic callback
button and send. -/
def API.ask_admin (a : API) (m : Message) : HRes (List BotAction) :=
  if !(a.admins.contains m.from_.id) then HRes.ok []
  else
    match API.get_original_message_id a m with
    | PanicOr.panic p => HRes.panic p
    | PanicOr.ok none => HRes.err "message id not found"
    | PanicOr.ok (some oid) =>
      HRes.ok [BotAction.sendMessage
        { chat_id := m.chat.id
          text := "该消息存在什么问题？"
          reply_to_message_id := some m.id
          reply_markup := some [[InlineKeyboardButton.callback "离题"
            ((Callback.Offtopic oid).to_string)]]
          parse_mode := some ParseMode.Markdown }]

/-- `API::handle_message`: a private message must be a forward (else warn and
ignore) and goes to `ask_admin`; a group/supergroup message in the configured
main group is cached via `Cache::set(m.from.id, m.date, m.id)` (the source
passes `(sender id, date)` positionally into `(time, user_name)`); everything
else is ignored. -/
def API.handle_message (a : API) (m : Message) : HRes (API × List BotAction) :=
  match m.chat with
  | MessageChat.Private _ =>
    if m.forward.isNone then HRes.ok (a, [])
    else
      match API.ask_admin a m with
      | HRes.panic p => HRes.panic p
      | HRes.err e => HRes.err e
      | HRes.ok acts => HRes.ok (a, acts)
  | MessageChat.Group _ =>
    if m.chat.id = a.cfg.main_group then
      match Cache.set a.cache m.from_.id (intDecimalStr m.date) m.id with
      | PanicOr.panic p => HRes.panic p
      | PanicOr.ok c1 => HRes.ok ({ a with cache := c1 }, [])
    else HRes.ok (a, [])
  | MessageChat.Supergroup _ =>
    if m.chat.id = a.cfg.main_group then
      match Cache.set a.cache m.from_.id (intDecimalStr m.date) m.id with
      | PanicOr.panic p => HRes.panic p
      | PanicOr.ok c1 => HRes.ok ({ a with cache := c1 }, [])
    else HRes.ok (a, [])
  | MessageChat.Unknown _ => HRes.ok (a, [])

/-- The literal text of the public off-topic notice. -/
def otAlertText : String :=
  "\n           请勿进行离题讨论，#archlinux-cn 仅用于 archlinux 相关话题讨论，无关主题请前往 OT 群\n            "

/-- `API::send_ot_alert`: the public notice to the main group, as a reply to the
original message, with one row of exactly two URL buttons. -/
def API.send_ot_alert (a : API) (original_message_id : Int) : List BotAction :=
  [BotAction.sendMessage
    { chat_id := a.cfg.main_group
      text := otAlertText
      reply_to_message_id := some original_message_id
      reply_markup := some [[InlineKeyboardButton.url "跳转到 OT 群" a.cfg.offtopic_group,
        InlineKeyboardButton.url "申诉" a.cfg.meta_group]]
      parse_mode := some ParseMode.Markdown }]

/-- `API::handle_callback`: a query with no payload is ignored (debug log,
`Ok(())`); a payload that fails to decode propagates the serde error via `?`;
a decoded flag-offtopic token sends the public notice and then acknowledges
the activation. -/
def API.handle_callback (a : API) (c : CallbackQuery) : HRes (List BotAction) :=
  match c.data with
  | none => HRes.ok []
  | some d =>
    match Callback.from_string d with
    | Except.error e => HRes.err e
    | Except.ok (Callback.Offtopic id) =>
      HRes.ok (API.send_ot_alert a id ++ [BotAction.acknowledge c.id])

/-- `API::handle`: dispatch on the update kind; other kinds are ignored. -/
def API.handle (a : API) (u : Update) : HRes (API × List BotAction) :=
  match u.kind with
  | UpdateKind.Message m => API.handle_message a m
  | UpdateKind.CallbackQuery c =>
    match API.handle_callback a c with
    | HRes.panic p => HRes.panic p
    | HRes.err e => HRes.err e
    | HRes.ok acts => HRes.ok (a, acts)
  | UpdateKind.Other => HRes.ok (a, [])

/-- `API::run`: the event loop. A handler error is logged
(`error!("handle update {}: {}", ..)`) and the loop continues with the next
update; a panic is not caught and aborts the whole run. Returns the final state
and the concatenation of all emitted outbound actions. -/
def API.run : API → List Update → PanicOr (API × List BotAction)
  | a, [] => PanicOr.ok (a, [])
  | a, u :: rest =>
    match API.handle a u with
    | HRes.panic p => PanicOr.panic p
    | HRes.err _ => API.run a rest
    | HRes.ok (a1, acts) =>
      match API.run a1 rest with
      | PanicOr.panic p => PanicOr.panic p
      | PanicOr.ok (a2, acts2) => PanicOr.ok (a2, acts ++ acts2)

/-! ### Projection helpers used to state concrete counterexamples -/

/-- The actions of a successful handler result. -/
def HRes.okActions : HRes (API × List BotAction) → Option (List BotAction)
  | HRes.ok (_, acts) => some acts
  | _ => none

/-- The stored cache bytes at a key after a successful handler step. -/
def HRes.okStore : HRes (API × List BotAction) → String → Option (List Nat)
  | HRes.ok (a, _), k => a.cache.db.store k
  | _, _ => none

/-- The panic message of an aborted run, if it aborted. -/
def PanicOr.panicMsg : PanicOr (API × List BotAction) → Option String
  | PanicOr.panic m => some m
  | _ => none

/-- The actions of a completed (non-panicking) run. -/
def PanicOr.okActions : PanicOr (API × List BotAction) → Option (List BotAction)
  | PanicOr.ok (_, acts) => some acts
  | _ => none

/-- Count the messages a list of actions sends into a given chat. -/
def countChatMessages (g : Int) (acts : List BotAction) : Nat :=
  acts.countP fun x =>
    match x with
    | BotAction.sendMessage s => decide (s.chat_id = g)
    | _ => false

/-! ### Concrete inputs used by witnesses and counterexamples -/

/-- An empty, error-free sled database. -/
def exSled : Sled := ⟨fun _ => none, []⟩

/-- A concrete configuration: main group id 10. -/
def exCfg : Config := ⟨"token", "db", 99, 10, "https://t.me/ot", "https://t.me/meta"⟩

/-- A concrete moderator, present in the admin set. -/
def exAdmin : User := ⟨100, "Alice"⟩

/-- A concrete ordinary sender. -/
def exSender : User := ⟨2, "Uma"⟩

/-- A concrete non-admin user. -/
def exOutsider : User := ⟨200, "Nia"⟩

/-- The API state after startup: empty cache, admin set {100}. -/
def exAPI : API := ⟨exCfg, Cache.new exSled, [100]⟩

/-- Message id 5 from sender 2 at date 3 in the main supergroup. -/
def exMainMsg : Message := ⟨5, exSender, 3, MessageChat.Supergroup 10, none⟩

/-- A second main-group message (id 6, date 4), used to show what a panic cuts off. -/
def exMainMsg2 : Message := ⟨6, exSender, 4, MessageChat.Supergroup 10, none⟩

/-- The admin's private forward of `exMainMsg`: forward origin (sender 2, date 3). -/
def exFwdMsg : Message :=
  ⟨7, exAdmin, 50, MessageChat.Private exAdmin, some ⟨3, ForwardFrom.User exSender⟩⟩

/-- An admin forward whose origin (sender 2, date 4) was never cached. -/
def exMissMsg : Message :=
  ⟨8, exAdmin, 51, MessageChat.Private exAdmin, some ⟨4, ForwardFrom.User exSender⟩⟩

/-- An admin forward of a post whose original sender is hidden. -/
def exHiddenMsg : Message :=
  ⟨9, exAdmin, 52, MessageChat.Private exAdmin, some ⟨3, ForwardFrom.ChannelHiddenUser "anon"⟩⟩

/-- A forward sent to the bot by a non-admin. -/
def exOutsiderMsg : Message :=
  ⟨11, exOutsider, 53, MessageChat.Private exOutsider, some ⟨3, ForwardFrom.User exSender⟩⟩

/-- A callback query carrying the encoded flag-offtopic token for message 5. -/
def exCbQuery (qid : String) : CallbackQuery :=
  ⟨qid, exAdmin, some ((Callback.Offtopic 5).to_string)⟩

/-- A sled database whose storage layer fails on the key `"2/3"` that
`exMainMsg` writes. -/
def exFailSled : Sled := ⟨fun _ => none, [Cache.key 2 (intDecimalStr 3)]⟩

/-- The API state over the failing database. -/
def exFailAPI : API := ⟨exCfg, Cache.new exFailSled, [100]⟩

/-- A decodable payload string not produced by the encoder: the canonical
encoding of `Offtopic 1` with one leading space of JSON whitespace. -/
def c2exStr : String := " \x7b\"Offtopic\":\x7b\"id\":1\x7d\x7d"

/-! ### Helper lemmas about the handlers -/

/-- The cache state after `handle_message` caches a main-group message
(the result of `Cache::set(m.from.id, m.date, m.id)`). -/
def cacheAfterPut (a : API) (m : Message) : Cache :=
  ⟨⟨fun k => if k = Cache.key m.from_.id (intDecimalStr m.date) then some (bincodeSerI64 m.id)
      else a.cache.db.store k,
    a.cache.db.ioErrors⟩⟩

theorem cache_set_ok (a : API) (m : Message) (hio : a.cache.db.ioErrors = []) :
    Cache.set a.cache m.from_.id (intDecimalStr m.date) m.id =
      PanicOr.ok (cacheAfterPut a m) := by
  unfold Cache.set cacheAfterPut
  rw [hio]
  rfl

/-- Every successful handler step keeps the admin registry of the state:
nothing after `API::new` ever writes `admins`. -/
theorem handle_admins_eq (a : API) (u : Update) (a1 : API) (acts : List BotAction)
    (h : API.handle a u = HRes.ok (a1, acts)) : a1.admins = a.admins := by
  unfold API.handle API.handle_message at h
  repeat' split at h
  all_goals
    first
      | exact HRes.noConfusion h
      | (injection h with h'
         injection h' with h1 h2
         rw [← h1])

/-- The event loop never changes the admin registry either. -/
theorem run_admins_eq (us : List Update) : ∀ (a a1 : API) (acts : List BotAction),
    API.run a us = PanicOr.ok (a1, acts) → a1.admins = a.admins := by
  induction us with
  | nil =>
    intro a a1 acts h
    injection h with h'
    injection h' with h1 h2
    rw [← h1]
  | cons u rest ih =>
    intro a a1 acts h
    unfold API.run at h
    split at h
    · exact PanicOr.noConfusion h
    · exact ih a a1 acts h
    · rename_i a2 acts2 hh
      split at h
      · exact PanicOr.noConfusion h
      · rename_i a3 acts3 hr
        injection h with h'
        injection h' with h1 h2
        rw [← h1, ih a2 a3 acts3 hr]
        exact handle_admins_eq a u a2 acts2 hh

/-! ### Claims -/

/-- Claim C4: a private forwarded message whose forwarding sender is not in the
admin registry never causes a confirmation prompt, regardless of the cache
contents (`a` — and with it the cache — is arbitrary): the handler returns
`Ok` with no outbound actions and an unchanged state (warn-log and ignore). -/
theorem c4_authorization_gate (a : API) (m : Message) (u : User) (f : Forward)
    (hchat : m.chat = MessageChat.Private u)
    (hfwd : m.forward = some f)
    (hadmin : a.admins.contains m.from_.id = false) :
    API.handle_message a m = HRes.ok (a, []) := by
  unfold API.handle_message API.ask_admin
  rw [hchat, hfwd, hadmin]
  rfl

/-- Claim C4 witness: the concrete non-admin forward `exOutsiderMsg` is ignored
without error and without any outbound action. -/
theorem c4_witness :
    exOutsiderMsg.chat = MessageChat.Private exOutsider ∧
    exOutsiderMsg.forward = some ⟨3, ForwardFrom.User exSender⟩ ∧
    exAPI.admins.contains exOutsiderMsg.from_.id = false ∧
    API.handle_message exAPI exOutsiderMsg = HRes.ok (exAPI, []) :=
  ⟨rfl, rfl, by decide,
   c4_authorization_gate exAPI exOutsiderMsg exOutsider ⟨3, ForwardFrom.User exSender⟩
     rfl rfl (by decide)⟩

/-- Claim C10: a private forward whose origin is not a plain user (channel post
or hidden sender) resolves to no message id whatever the cache holds (the cache
is never consulted: `a` is arbitrary), and for an authorized forwarder this
surfaces as the same "message id not found" handling error as a cache miss,
with no confirmation prompt emitted. -/
theorem c10_non_user_forward (a : API) (m : Message) (u : User) (fd : Int)
    (ff : ForwardFrom)
    (hchat : m.chat = MessageChat.Private u)
    (hfwd : m.forward = some ⟨fd, ff⟩)
    (hnotuser : ff.isUser = false)
    (hadmin : a.admins.contains m.from_.id = true) :
    API.get_original_message_id a m = PanicOr.ok none ∧
    API.handle_message a m = HRes.err "message id not found" := by
  have hoid : API.get_original_message_id a m = PanicOr.ok none := by
    unfold API.get_original_message_id
    rw [hfwd]
    cases ff with
    | User user => exact absurd hnotuser (by simp [ForwardFrom.isUser])
    | Channel cid mid => rfl
    | ChannelHiddenUser nm => rfl
  refine ⟨hoid, ?_⟩
  unfold API.handle_message API.ask_admin
  rw [hchat, hfwd, hadmin, hoid]
  rfl

/-- Claim C10 witness: the concrete hidden-sender forward `exHiddenMsg` from an
admin yields no resolution and the lookup-miss error, with no prompt. -/
theorem c10_witness :
    exHiddenMsg.chat = MessageChat.Private exAdmin ∧
    exHiddenMsg.forward = some ⟨3, ForwardFrom.ChannelHiddenUser "anon"⟩ ∧
    (ForwardFrom.ChannelHiddenUser "anon").isUser = false ∧
    exAPI.admins.contains exHiddenMsg.from_.id = true ∧
    (API.get_original_message_id exAPI exHiddenMsg = PanicOr.ok none ∧
     API.handle_message exAPI exHiddenMsg = HRes.err "message id not found") :=
  ⟨rfl, rfl, by decide, by decide,
   c10_non_user_forward exAPI exHiddenMsg exAdmin 3 (ForwardFrom.ChannelHiddenUser "anon")
     rfl rfl (by decide) (by decide)⟩

/-- Claim C6: an authorized moderator's forward referencing a (sender,
timestamp) pair with no live cache entry ends in the reported handling error
`"message id not found"` (not a silent ignore), emits no prompt (an `err`
result carries no actions), and does not crash: the event loop continues with
the remaining updates exactly as if the event had not occurred. -/
theorem c6_lookup_miss (a : API) (m : Message) (u fu : User) (fd : Int)
    (us : List Update) (n : Int)
    (hchat : m.chat = MessageChat.Private u)
    (hfwd : m.forward = some ⟨fd, ForwardFrom.User fu⟩)
    (hadmin : a.admins.contains m.from_.id = true)
    (hio : a.cache.db.ioErrors = [])
    (hmiss : a.cache.db.store (Cache.key fu.id (intDecimalStr fd)) = none) :
    API.handle_message a m = HRes.err "message id not found" ∧
    API.run a (⟨n, UpdateKind.Message m⟩ :: us) = API.run a us := by
  have hget : Cache.get a.cache fu.id (intDecimalStr fd) = PanicOr.ok none := by
    unfold Cache.get
    rw [hio, hmiss]
    rfl
  have hoid : API.get_original_message_id a m = PanicOr.ok none := by
    unfold API.get_original_message_id
    rw [hfwd]
    exact hget
  have hmain : API.handle_message a m = HRes.err "message id not found" := by
    unfold API.handle_message API.ask_admin
    rw [hchat, hfwd, hadmin, hoid]
    rfl
  refine ⟨hmain, ?_⟩
  have hh : API.handle a ⟨n, UpdateKind.Message m⟩ = HRes.err "message id not found" := by
    unfold API.handle
    exact hmain
  conv_lhs => unfold API.run
  simp only [hh]

/-- Claim C6 witness: the concrete uncached forward `exMissMsg` (origin
(2, 4), never written) errs with "message id not found" and the loop goes on. -/
theorem c6_witness :
    exMissMsg.chat = MessageChat.Private exAdmin ∧
    exMissMsg.forward = some ⟨4, ForwardFrom.User exSender⟩ ∧
    exAPI.admins.contains exMissMsg.from_.id = true ∧
    exAPI.cache.db.ioErrors = [] ∧
    exAPI.cache.db.store (Cache.key exSender.id (intDecimalStr 4)) = none ∧
    (API.handle_message exAPI exMissMsg = HRes.err "message id not found" ∧
     API.run exAPI [⟨1, UpdateKind.Message exMissMsg⟩] = API.run exAPI []) :=
  ⟨rfl, rfl, by decide, rfl, rfl,
   c6_lookup_miss exAPI exMissMsg exAdmin exSender 4 [] 1
     rfl rfl (by decide) rfl rfl⟩

/-- Claim C8: when the one-time `GetChatAdministrators` fetch at startup fails,
`API::new` still returns `Ok` (the error is only logged) with an empty admin
registry, so no sender identity is ever authorized; and neither `handle` nor
the event loop ever changes the registry after construction. -/
theorem c8_fail_closed (cfg : Config) (e : String) (db : Sled) (x : Int)
    (a0 a1 : API) (u : Update) (acts : List BotAction) (us : List Update) :
    API.new cfg (Except.error e) db =
      Except.ok { cfg := cfg, cache := Cache.new db, admins := [] } ∧
    (API.new cfg (Except.error e) db = Except.ok a0 → a0.admins.contains x = false) ∧
    (API.handle a0 u = HRes.ok (a1, acts) → a1.admins = a0.admins) ∧
    (API.run a0 us = PanicOr.ok (a1, acts) → a1.admins = a0.admins) := by
  refine ⟨rfl, ?_, ?_, ?_⟩
  · intro h
    injection h with h'
    rw [← h']
    rfl
  · exact handle_admins_eq a0 u a1 acts
  · exact run_admins_eq us a0 a1 acts

/-- Claim C8 witness: with a concrete failed fetch the registry is empty, user
100 is unauthorized, and a concrete handled update and a finished run keep the
registry. -/
theorem c8_witness :
    API.new exCfg (Except.error "connection reset") exSled =
      Except.ok { cfg := exCfg, cache := Cache.new exSled, admins := [] } ∧
    (API.new exCfg (Except.error "connection reset") exSled =
      Except.ok { cfg := exCfg, cache := Cache.new exSled, admins := ([] : List Int) } →
      ({ cfg := exCfg, cache := Cache.new exSled, admins := ([] : List Int) } : API).admins.contains 100 = false) ∧
    (API.handle { cfg := exCfg, cache := Cache.new exSled, admins := ([] : List Int) } ⟨1, UpdateKind.Other⟩ =
      HRes.ok ({ cfg := exCfg, cache := Cache.new exSled, admins := ([] : List Int) }, []) →
      ({ cfg := exCfg, cache := Cache.new exSled, admins := ([] : List Int) } : API).admins =
        ({ cfg := exCfg, cache := Cache.new exSled, admins := ([] : List Int) } : API).admins) ∧
    (API.run { cfg := exCfg, cache := Cache.new exSled, admins := ([] : List Int) } [] =
      PanicOr.ok ({ cfg := exCfg, cache := Cache.new exSled, admins := ([] : List Int) }, []) →
      ({ cfg := exCfg, cache := Cache.new exSled, admins := ([] : List Int) } : API).admins =
        ({ cfg := exCfg, cache := Cache.new exSled, admins := ([] : List Int) } : API).admins) :=
  c8_fail_closed exCfg "connection reset" exSled 100
    { cfg := exCfg, cache := Cache.new exSled, admins := [] }
    { cfg := exCfg, cache := Cache.new exSled, admins := [] }
    ⟨1, UpdateKind.Other⟩ [] []

/-- Claim C9 (amended): a storage-layer failure during a cache write or read is
NOT contained to the current event: `Cache::set`/`Cache::get` hit
`.expect("write into cache failed")` / `.expect("read from cache failed")`,
the panic escapes the event loop (which catches only returned errors), and the
whole run aborts — the remaining events are never processed. -/
theorem c9_storage_panic (a : API) (u : Update) (us : List Update) (p : String)
    (c : Cache) (t mid : Int) (un : String) :
    (API.handle a u = HRes.panic p → API.run a (u :: us) = PanicOr.panic p) ∧
    (c.db.ioErrors.contains (Cache.key t un) = true →
      Cache.set c t un mid = PanicOr.panic "write into cache failed" ∧
      Cache.get c t un = PanicOr.panic "read from cache failed") := by
  refine ⟨?_, ?_⟩
  · intro h
    conv_lhs => unfold API.run
    simp only [h]
  · intro h
    refine ⟨?_, ?_⟩
    · unfold Cache.set
      rw [h]
      rfl
    · unfold Cache.get
      rw [h]
      rfl

/-- Claim C9 counterexample: over a database whose storage layer fails for the
key "2/3", handling the main-group message that writes that key panics, and the
run aborts with the panic instead of continuing to the second, still-unprocessed
update — the process terminates rather than containing the failure. -/
theorem c9_counterexample :
    API.run exFailAPI [⟨1, UpdateKind.Message exMainMsg⟩, ⟨2, UpdateKind.Message exMainMsg2⟩] =
      PanicOr.panic "write into cache failed" := rfl

/-- Claim C9 witness: the concrete failing write panics and aborts the run. -/
theorem c9_witness :
    (API.handle exFailAPI ⟨1, UpdateKind.Message exMainMsg⟩ =
      HRes.panic "write into cache failed") ∧
    (API.run exFailAPI [⟨1, UpdateKind.Message exMainMsg⟩, ⟨2, UpdateKind.Message exMainMsg2⟩] =
      PanicOr.panic "write into cache failed") ∧
    (Cache.new exFailSled).db.ioErrors.contains (Cache.key 2 (intDecimalStr 3)) = true ∧
    Cache.set (Cache.new exFailSled) 2 (intDecimalStr 3) 5 =
      PanicOr.panic "write into cache failed" ∧
    Cache.get (Cache.new exFailSled) 2 (intDecimalStr 3) =
      PanicOr.panic "read from cache failed" :=
  ⟨rfl,
   (c9_storage_panic exFailAPI ⟨1, UpdateKind.Message exMainMsg⟩
     [⟨2, UpdateKind.Message exMainMsg2⟩] "write into cache failed"
     (Cache.new exFailSled) 2 5 (intDecimalStr 3)).1 rfl,
   by decide,
   ((c9_storage_panic exFailAPI ⟨1, UpdateKind.Message exMainMsg⟩
     [⟨2, UpdateKind.Message exMainMsg2⟩] "write into cache failed"
     (Cache.new exFailSled) 2 5 (intDecimalStr 3)).2 (by decide)).1,
   ((c9_storage_panic exFailAPI ⟨1, UpdateKind.Message exMainMsg⟩
     [⟨2, UpdateKind.Message exMainMsg2⟩] "write into cache failed"
     (Cache.new exFailSled) 2 5 (intDecimalStr 3)).2 (by decide)).2⟩

/-- Claim C3 (amended): caching a main-group message writes the physical key
`"<sender-identity>/<timestamp>"` — the sender id first, then the date, joined
by `/` — because `handle_message` passes `(m.from.id, m.date)` positionally
into `Cache::set(time, user_name)`; the stored value is the fixed 8-byte
little-endian bincode encoding of the 64-bit message id; and the get path
(`get_original_message_id`, passing `(user.id, forward.date)` in the same
order) derives exactly the same physical key from the same two logical
fields, so put and get agree. (The spec's layout `"<timestamp>/<sender>"` has
the two fields in the opposite order: see the counterexample.) -/
theorem c3_key_layout (a : API) (m : Message) (fu : User) (fd : Int)
    (hchat : m.chat = MessageChat.Supergroup a.cfg.main_group)
    (hio : a.cache.db.ioErrors = []) :
    API.handle_message a m = HRes.ok ({ a with cache := cacheAfterPut a m }, []) ∧
    (cacheAfterPut a m).db.store (Cache.key m.from_.id (intDecimalStr m.date)) =
      some (bincodeSerI64 m.id) ∧
    Cache.key m.from_.id (intDecimalStr m.date) =
      String.mk (intDecimal m.from_.id ++ '/' :: intDecimal m.date) ∧
    API.get_original_message_id a { m with forward := some ⟨fd, ForwardFrom.User fu⟩ } =
      Cache.get a.cache fu.id (intDecimalStr fd) := by
  refine ⟨?_, ?_, rfl, rfl⟩
  · simp [API.handle_message, hchat, MessageChat.id, cache_set_ok a m hio]
  · simp [cacheAfterPut]

/-- Claim C3 counterexample: for the concrete main-group message with sender 2,
timestamp 3 and id 5, the spec's key `"<timestamp>/<sender-identity>"` = "3/2"
holds nothing after the write, while the actual key "2/3" (sender first) holds
the encoded id — so the claimed physical layout is wrong about the field
order, though the value encoding and put/get agreement are right. -/
theorem c3_counterexample :
    HRes.okStore (API.handle_message exAPI exMainMsg) "3/2" = none ∧
    HRes.okStore (API.handle_message exAPI exMainMsg) "2/3" = some (bincodeSerI64 5) ∧
    HRes.okActions (API.handle_message exAPI exMainMsg) = some [] ∧
    Cache.key 3 (intDecimalStr 2) = "3/2" ∧
    Cache.key 2 (intDecimalStr 3) = "2/3" := by decide

/-- Claim C3 witness: the layout theorem at the concrete message (sender 2,
date 3, id 5) over the empty database. -/
theorem c3_witness :
    exMainMsg.chat = MessageChat.Supergroup exAPI.cfg.main_group ∧
    exAPI.cache.db.ioErrors = [] ∧
    (API.handle_message exAPI exMainMsg =
        HRes.ok ({ exAPI with cache := cacheAfterPut exAPI exMainMsg }, []) ∧
      (cacheAfterPut exAPI exMainMsg).db.store
          (Cache.key exMainMsg.from_.id (intDecimalStr exMainMsg.date)) =
        some (bincodeSerI64 exMainMsg.id) ∧
      Cache.key exMainMsg.from_.id (intDecimalStr exMainMsg.date) =
        String.mk (intDecimal exMainMsg.from_.id ++ '/' :: intDecimal exMainMsg.date) ∧
      API.get_original_message_id exAPI
          { exMainMsg with forward := some ⟨3, ForwardFrom.User exSender⟩ } =
        Cache.get exAPI.cache exSender.id (intDecimalStr 3)) :=
  ⟨rfl, rfl, c3_key_layout exAPI exMainMsg exSender 3 rfl rfl⟩

/-- Claim C7: over the durable backend starting from an empty database, any
finite sequence of puts leaves, for every key, exactly the value of the most
recent put for that exact (time, user_name) pair — last-write-wins under exact
key equality (no time-window fuzzing, by injectivity of the key derivation) —
and a get of a never-put key returns absent (`ok none`), not an error; no
operation panics. The range hypothesis says all written ids are i64 values, as
they are in the source. -/
theorem c7_last_write_wins (ops : List (Int × String × Int)) (t : Int) (u : String)
    (hv : ∀ o ∈ ops, -9223372036854775808 ≤ o.2.2 ∧ o.2.2 ≤ 9223372036854775807) :
    (Cache.runSets emptyCache ops).isOkB = true ∧
    (Cache.runSets emptyCache ops).bindGet t u = PanicOr.ok (lastPut t u ops) := by
  obtain ⟨c1, hrun, hio1, hstore⟩ := runSets_spec emptyCache ops rfl
  rw [hrun]
  refine ⟨rfl, ?_⟩
  show Cache.get c1 t u = PanicOr.ok (lastPut t u ops)
  unfold Cache.get
  rw [hio1, hstore t u]
  cases hl : lastPut t u ops with
  | none => rfl
  | some m =>
    have hr := hv (t, u, m) (lastPut_mem t u ops m hl)
    simp [bincode_roundtrip m hr.1 hr.2]

/-- A concrete put sequence: two writes to the key (1, "a"), then one to (2, "b"). -/
def exOps : List (Int × String × Int) := [(1, "a", 5), (1, "a", 6), (2, "b", 7)]

/-- Claim C7 witness: after the concrete sequence, the repeated key (1, "a")
reads back the later value 6 (`lastPut` of the sequence), with no panic. -/
theorem c7_witness :
    (∀ o ∈ exOps, -9223372036854775808 ≤ o.2.2 ∧ o.2.2 ≤ 9223372036854775807) ∧
    ((Cache.runSets emptyCache exOps).isOkB = true ∧
     (Cache.runSets emptyCache exOps).bindGet 1 "a" = PanicOr.ok (lastPut 1 "a" exOps)) :=
  ⟨by decide, c7_last_write_wins exOps 1 "a" (by decide)⟩

/-- Claim C2 (amended): `decode(encode t) = t` for every valid token (any i64
id); when decode succeeds it always returns a genuine token whose canonical
encoding round-trips (never a default value — failures are `Except.error`);
and every encoded string starts with the object brace. The original claim's
second half — that decode fails on EVERY string not produced by encode — is
false: serde_json also accepts JSON-whitespace variants (see the
counterexample). -/
theorem c2_codec_roundtrip (id : Int) (s : String) (t : Callback)
    (h1 : -9223372036854775808 ≤ id) (h2 : id ≤ 9223372036854775807) :
    Callback.from_string (Callback.to_string (Callback.Offtopic id)) =
      Except.ok (Callback.Offtopic id) ∧
    (Callback.from_string s = Except.ok t →
      Callback.from_string (Callback.to_string t) = Except.ok t) ∧
    (Callback.to_string t).data.head? = some '\x7b' := by
  refine ⟨from_string_to_string id h1 h2, ?_, to_string_head_brace t⟩
  intro h
  cases t with
  | Offtopic tid =>
    have hr := from_string_ok_range s tid h
    exact from_string_to_string tid hr.1 hr.2

/-- Claim C2 counterexample: the string `c2exStr` — the canonical encoding of
`Offtopic 1` preceded by one space — decodes successfully, yet it is not
produced by `encode` for any token: every encoded string begins with the brace
(`to_string_head_brace`, also the last conjunct of the claim theorem), while
this one begins with a space. So decode accepts a string outside encode's
image, refuting "decode returns a failure on every string not produced by
encode". -/
theorem c2_counterexample :
    Callback.from_string c2exStr = Except.ok (Callback.Offtopic 1) ∧
    Callback.to_string (Callback.Offtopic 1) ≠ c2exStr ∧
    c2exStr.data.head? = some ' ' := by decide

/-- Claim C2 witness: the round trip at id 1, and the accepted whitespace
variant decodes to a token whose canonical encoding round-trips. -/
theorem c2_witness :
    (-9223372036854775808 ≤ (1 : Int)) ∧ ((1 : Int) ≤ 9223372036854775807) ∧
    (Callback.from_string (Callback.to_string (Callback.Offtopic 1)) =
        Except.ok (Callback.Offtopic 1) ∧
      (Callback.from_string c2exStr = Except.ok (Callback.Offtopic 1) →
        Callback.from_string (Callback.to_string (Callback.Offtopic 1)) =
          Except.ok (Callback.Offtopic 1)) ∧
      (Callback.to_string (Callback.Offtopic 1)).data.head? = some '\x7b') :=
  ⟨by decide, by decide,
   c2_codec_roundtrip 1 c2exStr (Callback.Offtopic 1) (by decide) (by decide)⟩

/-- Claim C5 (amended): on every successful decode of a flag-offtopic token the
handler emits exactly one public notice to the main group — a reply to the
resolved message id with exactly one row of exactly two URL link buttons —
followed by exactly one acknowledgement of the activation. But the code keeps
no consumed-token state: activating the same control a second time repeats
exactly the same notice and acknowledgement (the state `a` is unchanged by
callback handling), so a duplicate public notice IS emitted — the original
claim's idempotence half fails (see the counterexample). -/
theorem c5_activation (a : API) (c : CallbackQuery) (d : String) (id n1 n2 : Int)
    (hd : c.data = some d)
    (hdec : Callback.from_string d = Except.ok (Callback.Offtopic id)) :
    API.handle_callback a c =
      HRes.ok (API.send_ot_alert a id ++ [BotAction.acknowledge c.id]) ∧
    API.send_ot_alert a id = [BotAction.sendMessage
      { chat_id := a.cfg.main_group
        text := otAlertText
        reply_to_message_id := some id
        reply_markup := some [[InlineKeyboardButton.url "跳转到 OT 群" a.cfg.offtopic_group,
          InlineKeyboardButton.url "申诉" a.cfg.meta_group]]
        parse_mode := some ParseMode.Markdown }] ∧
    API.run a [⟨n1, UpdateKind.CallbackQuery c⟩, ⟨n2, UpdateKind.CallbackQuery c⟩] =
      PanicOr.ok (a, (API.send_ot_alert a id ++ [BotAction.acknowledge c.id]) ++
        (API.send_ot_alert a id ++ [BotAction.acknowledge c.id])) := by
  have h1 : API.handle_callback a c =
      HRes.ok (API.send_ot_alert a id ++ [BotAction.acknowledge c.id]) := by
    simp only [API.handle_callback, hd, hdec]
  have hh : ∀ n : Int, API.handle a ⟨n, UpdateKind.CallbackQuery c⟩ =
      HRes.ok (a, API.send_ot_alert a id ++ [BotAction.acknowledge c.id]) := by
    intro n
    simp only [API.handle, h1]
  refine ⟨h1, rfl, ?_⟩
  simp [API.run, hh]

/-- Claim C5 counterexample: activating the control for message 5 once emits
one public notice to the main group (chat 10); activating the same consumed
control a second time emits a second one — the run over two activations of the
same payload counts two main-group notices, where the claim requires the
second activation to add none. -/
theorem c5_counterexample :
    countChatMessages 10
      ((API.run exAPI [⟨1, UpdateKind.CallbackQuery (exCbQuery "q1")⟩]).okActions.getD []) = 1 ∧
    countChatMessages 10
      ((API.run exAPI [⟨1, UpdateKind.CallbackQuery (exCbQuery "q1")⟩,
        ⟨2, UpdateKind.CallbackQuery (exCbQuery "q2")⟩]).okActions.getD []) = 2 := by decide

/-- Claim C5 witness: the activation theorem at the concrete query for
message 5 over `exAPI`. -/
theorem c5_witness :
    (exCbQuery "q1").data = some ((Callback.Offtopic 5).to_string) ∧
    Callback.from_string ((Callback.Offtopic 5).to_string) =
      Except.ok (Callback.Offtopic 5) ∧
    (API.handle_callback exAPI (exCbQuery "q1") =
        HRes.ok (API.send_ot_alert exAPI 5 ++ [BotAction.acknowledge (exCbQuery "q1").id]) ∧
      API.send_ot_alert exAPI 5 = [BotAction.sendMessage
        { chat_id := exAPI.cfg.main_group
          text := otAlertText
          reply_to_message_id := some 5
          reply_markup := some [[InlineKeyboardButton.url "跳转到 OT 群" exAPI.cfg.offtopic_group,
            InlineKeyboardButton.url "申诉" exAPI.cfg.meta_group]]
          parse_mode := some ParseMode.Markdown }] ∧
      API.run exAPI [⟨1, UpdateKind.CallbackQuery (exCbQuery "q1")⟩,
          ⟨2, UpdateKind.CallbackQuery (exCbQuery "q1")⟩] =
        PanicOr.ok (exAPI,
          (API.send_ot_alert exAPI 5 ++ [BotAction.acknowledge (exCbQuery "q1").id]) ++
          (API.send_ot_alert exAPI 5 ++ [BotAction.acknowledge (exCbQuery "q1").id]))) :=
  ⟨rfl, by decide,
   c5_activation exAPI (exCbQuery "q1") ((Callback.Offtopic 5).to_string) 5 1 2
     rfl (by decide)⟩

/-- Claim C1: end-to-end correlation. A main-group message M from sender U at
timestamp T is cached by step 1 (first conjunct: the only effect is the cache
write, no actions). A subsequent private message forwarded to the bot by an
authorized moderator whose forward-origin is (U, T) then produces exactly one
confirmation prompt — one `SendMessage` addressed to the moderator's private
chat (`au.id`) — containing exactly one interactive control, whose payload
decodes to the flag-offtopic token referencing M's message identifier (last
conjunct). The range hypotheses say M.id is an i64, as it is in the source. -/
theorem c1_end_to_end (a : API) (M F : Message) (fu au : User)
    (hio : a.cache.db.ioErrors = [])
    (hchat : M.chat = MessageChat.Supergroup a.cfg.main_group)
    (hr1 : -9223372036854775808 ≤ M.id) (hr2 : M.id ≤ 9223372036854775807)
    (hFchat : F.chat = MessageChat.Private au)
    (hfwd : F.forward = some ⟨M.date, ForwardFrom.User fu⟩)
    (hfu : fu.id = M.from_.id)
    (hadmin : a.admins.contains F.from_.id = true) :
    API.handle_message a M = HRes.ok ({ a with cache := cacheAfterPut a M }, []) ∧
    API.handle_message { a with cache := cacheAfterPut a M } F =
      HRes.ok ({ a with cache := cacheAfterPut a M },
        [BotAction.sendMessage
          { chat_id := au.id
            text := "该消息存在什么问题？"
            reply_to_message_id := some F.id
            reply_markup := some [[InlineKeyboardButton.callback "离题"
              ((Callback.Offtopic M.id).to_string)]]
            parse_mode := some ParseMode.Markdown }]) ∧
    Callback.from_string ((Callback.Offtopic M.id).to_string) =
      Except.ok (Callback.Offtopic M.id) := by
  have step1 : API.handle_message a M =
      HRes.ok ({ a with cache := cacheAfterPut a M }, []) := by
    simp [API.handle_message, hchat, MessageChat.id, cache_set_ok a M hio]
  refine ⟨step1, ?_, from_string_to_string M.id hr1 hr2⟩
  have hget : Cache.get (cacheAfterPut a M) fu.id (intDecimalStr M.date) =
      PanicOr.ok (some M.id) := by
    unfold Cache.get cacheAfterPut
    rw [hfu, hio]
    simp [bincode_roundtrip M.id hr1 hr2]
  have hoid : API.get_original_message_id { a with cache := cacheAfterPut a M } F =
      PanicOr.ok (some M.id) := by
    unfold API.get_original_message_id
    rw [hfwd]
    exact hget
  have hadmin1 : ({ a with cache := cacheAfterPut a M } : API).admins.contains F.from_.id
      = true := hadmin
  have hask : API.ask_admin { a with cache := cacheAfterPut a M } F =
      HRes.ok [BotAction.sendMessage
        { chat_id := au.id
          text := "该消息存在什么问题？"
          reply_to_message_id := some F.id
          reply_markup := some [[InlineKeyboardButton.callback "离题"
            ((Callback.Offtopic M.id).to_string)]]
          parse_mode := some ParseMode.Markdown }] := by
    unfold API.ask_admin
    rw [hadmin1, hoid, hFchat]
    rfl
  unfold API.handle_message
  rw [hFchat, hfwd, hask]
  rfl

/-- Claim C1 witness: the concrete flow — main-group message (sender 2, date 3,
id 5) cached, then the admin's forward with origin (2, 3) prompts the admin's
private chat (id 100) with the single button whose payload decodes to
`Offtopic 5`. -/
theorem c1_witness :
    exAPI.cache.db.ioErrors = [] ∧
    exMainMsg.chat = MessageChat.Supergroup exAPI.cfg.main_group ∧
    exFwdMsg.chat = MessageChat.Private exAdmin ∧
    exFwdMsg.forward = some ⟨exMainMsg.date, ForwardFrom.User exSender⟩ ∧
    exSender.id = exMainMsg.from_.id ∧
    exAPI.admins.contains exFwdMsg.from_.id = true ∧
    (API.handle_message exAPI exMainMsg =
        HRes.ok ({ exAPI with cache := cacheAfterPut exAPI exMainMsg }, []) ∧
      API.handle_message { exAPI with cache := cacheAfterPut exAPI exMainMsg } exFwdMsg =
        HRes.ok ({ exAPI with cache := cacheAfterPut exAPI exMainMsg },
          [BotAction.sendMessage
            { chat_id := exAdmin.id
              text := "该消息存在什么问题？"
              reply_to_message_id := some exFwdMsg.id
              reply_markup := some [[InlineKeyboardButton.callback "离题"
                ((Callback.Offtopic exMainMsg.id).to_string)]]
              parse_mode := some ParseMode.Markdown }]) ∧
      Callback.from_string ((Callback.Offtopic exMainMsg.id).to_string) =
        Except.ok (Callback.Offtopic exMainMsg.id)) :=
  ⟨rfl, rfl, rfl, rfl, rfl, by decide,
   c1_end_to_end exAPI exMainMsg exFwdMsg exSender exAdmin
     rfl rfl (by decide) (by decide) rfl rfl rfl (by decide)⟩
